import Mathlib

/-!
# TFSA Contribution Tracker — verification of the Contribution Room Ledger

Shallow embedding of the ledger logic of `src/app.py` (a Streamlit app):
the annual limit table, the eligibility calculator, the transaction store
with its id counter, the room/balance validation performed on form submit,
and the monthly aggregation.  Money is modelled as `ℚ`, calendar years as
`ℤ`, months as `ℕ`.
-/

/-- The transaction kind, `type` in the source (`"deposit"` / `"withdrawal"`). -/
inductive Kind where
  | deposit
  | withdrawal
deriving DecidableEq, Repr

/-- A stored transaction: `{id, date, type, amount}` in the source.  The
source stores the date as a `YYYY-MM-DD` string and recovers `year` and
`month` through pandas; only the year and month are ever consulted, so the
date is embedded as those two fields. -/
structure Txn where
  id : Nat
  year : Int
  month : Nat
  kind : Kind
  amount : ℚ
deriving DecidableEq, Repr

/-- The mutable session state the ledger owns: the transaction log and the
auto-increment id counter (`st.session_state.transactions` / `next_id`). -/
structure AppState where
  transactions : List Txn
  next_id : Nat
deriving DecidableEq, Repr

/-- `init_state`: `transactions = []`, `next_id = 1`. -/
def initState : AppState := ⟨[], 1⟩

/-- The carryover-basis mode chosen by the `ever_contributed` radio:
`inferred` is "No" (never contributed), `declared c` is "Yes" with the
manually entered carryover `c` (`st.session_state.carryover_manual`). -/
inductive CarryMode where
  | inferred
  | declared (carryover_manual : ℚ)
deriving DecidableEq, Repr

/-- The estimator inputs fixed during one submit: birth year (from the
date-of-birth widget), the current calendar year, and the carryover mode. -/
structure Config where
  dobYear : Int
  currentYear : Int
  mode : CarryMode
deriving DecidableEq, Repr

/-- `LIMITS_BY_YEAR.get(y, 0)`: the annual limit table, 0 outside 2009–2025. -/
def LIMITS_BY_YEAR : Int → ℚ
  | 2009 => 5000 | 2010 => 5000 | 2011 => 5000 | 2012 => 5000 | 2013 => 5500
  | 2014 => 5500 | 2015 => 10000 | 2016 => 5500 | 2017 => 5500 | 2018 => 5500
  | 2019 => 6000 | 2020 => 6000 | 2021 => 6000 | 2022 => 6000 | 2023 => 6500
  | 2024 => 7000 | 2025 => 7000
  | _ => 0

/-- `tfsa_start_year_from_dob`: `max(dob.year + 18, 2009)`. -/
def tfsa_start_year_from_dob (dobYear : Int) : Int :=
  max (dobYear + 18) 2009

/-- `total_room_from_inception(dob, through_year)`: the Python generator
`sum(LIMITS_BY_YEAR.get(y, 0) for y in range(start, through_year + 1))`,
embedded with `List.range` over the length of the Python range. -/
def total_room_from_inception (dobYear : Int) (through_year : Int) : ℚ :=
  let start := tfsa_start_year_from_dob dobYear
  (((List.range (through_year + 1 - start).toNat).map
      fun i : ℕ => LIMITS_BY_YEAR (start + (i : Int))).sum)

/-- `current_year_limit(year)`: `LIMITS_BY_YEAR.get(year, 0)`. -/
def current_year_limit (year : Int) : ℚ :=
  LIMITS_BY_YEAR year

/-- `current_year_deposits(df, year)`: sum of `amount` over rows with
`year == year` and `type == "deposit"`. -/
def current_year_deposits (txns : List Txn) (year : Int) : ℚ :=
  ((txns.filter fun t => decide (t.year = year ∧ t.kind = Kind.deposit)).map
    Txn.amount).sum

/-- `lifetime_balance(df)`: total deposit amounts minus total withdrawal
amounts over the whole log. -/
def lifetime_balance (txns : List Txn) : ℚ :=
  ((txns.filter fun t => decide (t.kind = Kind.deposit)).map Txn.amount).sum -
  ((txns.filter fun t => decide (t.kind = Kind.withdrawal)).map Txn.amount).sum

/-- `carryover_prior` (lines 241 and 249): in "No" mode the estimated
all-time room minus this year's limit, in "Yes" mode the manual carryover. -/
def carryover_prior (cfg : Config) : ℚ :=
  match cfg.mode with
  | .inferred =>
      total_room_from_inception cfg.dobYear cfg.currentYear -
        current_year_limit cfg.currentYear
  | .declared c => c

/-- `estimated_room_total` (lines 240 and 248): all-time room in "No" mode,
declared carryover plus this year's limit in "Yes" mode. -/
def estimated_room_total (cfg : Config) : ℚ :=
  match cfg.mode with
  | .inferred => total_room_from_inception cfg.dobYear cfg.currentYear
  | .declared c => c + current_year_limit cfg.currentYear

/-- `total_room_this_year` (lines 292–299): the "this year's room
breakdown" total. -/
def total_room_this_year (cfg : Config) : ℚ :=
  match cfg.mode with
  | .declared _ => carryover_prior cfg + current_year_limit cfg.currentYear
  | .inferred =>
      if cfg.currentYear > 2009 then
        total_room_from_inception cfg.dobYear cfg.currentYear -
          total_room_from_inception cfg.dobYear (cfg.currentYear - 1) +
          carryover_prior cfg
      else current_year_limit cfg.currentYear

/-- `room_used_pct` (line 255): guarded percentage of room used. -/
def room_used_pct (deposits_ytd est_total : ℚ) : ℚ :=
  if est_total > 0 then deposits_ytd / est_total * 100 else 0

/-- `pct_used` (line 300): guarded percentage against `total_room_this_year`. -/
def pct_used (deposits_ytd total_room : ℚ) : ℚ :=
  if total_room > 0 then deposits_ytd / total_room * 100 else 0

/-- `pct2` (line 371): guarded percentage recomputed after an accepted
deposit. -/
def pct2 (dep2 est_total : ℚ) : ℚ :=
  if est_total > 0 then dep2 / est_total * 100 else 0

/-- `room_left` (line 256): `max(0.0, estimated_room_total - deposits_ytd)`
for the current year. -/
def room_left (cfg : Config) (txns : List Txn) : ℚ :=
  max 0 (estimated_room_total cfg - current_year_deposits txns cfg.currentYear)

/-- `base_carry` (line 349): the carryover applied to a current-year
deposit — `carryover_prior` in "No" mode, `carryover_manual` in "Yes" mode. -/
def base_carry (cfg : Config) : ℚ :=
  match cfg.mode with
  | .inferred => carryover_prior cfg
  | .declared c => c

/-- The deposit branch's `allowed_room` (lines 345–352): current-year
deposits get the carryover, backdated deposits get only that year's limit;
both floored at 0. -/
def allowed_room_for (cfg : Config) (txns : List Txn) (deposit_year : Int) : ℚ :=
  let deposits_that_year := current_year_deposits txns deposit_year
  let year_limit := current_year_limit deposit_year
  if deposit_year = cfg.currentYear then
    max 0 (base_carry cfg + year_limit - deposits_that_year)
  else
    max 0 (year_limit - deposits_that_year)

/-- The outcome of one form submit (`ValidationOutcome` in the spec):
the error messages of lines 341, 355 and 379, or acceptance with the
issued id. -/
inductive Outcome where
  | accepted (id : Nat)
  | invalidAmount
  | insufficientRoom (allowed_room : ℚ)
  | insufficientBalance (available : ℚ)
deriving DecidableEq, Repr

/-- The `txn_form` submit handler (lines 338–396): the amount gate, then
the deposit branch (room validation, append, `next_id += 1`) or the
withdrawal branch (balance validation, append, `next_id += 1`). -/
def submitTxn (cfg : Config) (s : AppState) (t_year : Int) (t_month : Nat)
    (t_kind : Kind) (t_amount : ℚ) : AppState × Outcome :=
  if t_amount ≤ 0 then (s, .invalidAmount)
  else
    match t_kind with
    | .deposit =>
        let room := allowed_room_for cfg s.transactions t_year
        if t_amount > room then (s, .insufficientRoom room)
        else
          (⟨s.transactions ++ [⟨s.next_id, t_year, t_month, .deposit, t_amount⟩],
            s.next_id + 1⟩, .accepted s.next_id)
    | .withdrawal =>
        let bal := lifetime_balance s.transactions
        if t_amount > bal then (s, .insufficientBalance bal)
        else
          (⟨s.transactions ++ [⟨s.next_id, t_year, t_month, .withdrawal, t_amount⟩],
            s.next_id + 1⟩, .accepted s.next_id)

/-- The per-row delete button handler (lines 445–449): keep every
transaction whose id differs. -/
def deleteTxn (s : AppState) (txn_id : Nat) : AppState :=
  ⟨s.transactions.filter fun tx => decide (tx.id ≠ txn_id), s.next_id⟩

/-- The clear-all confirm handler (lines 417–422): empties the list,
touches nothing else. -/
def clearAll (s : AppState) : AppState :=
  ⟨[], s.next_id⟩

/-- One user-level store operation: a form submit, a row delete, or the
confirmed clear-all. -/
inductive Op where
  | add (year : Int) (month : Nat) (kind : Kind) (amount : ℚ)
  | del (txn_id : Nat)
  | clear
deriving DecidableEq, Repr

/-- Apply one operation to the session state. -/
def applyOp (cfg : Config) (s : AppState) : Op → AppState
  | .add y m k a => (submitTxn cfg s y m k a).1
  | .del i => deleteTxn s i
  | .clear => clearAll s

/-- Run a sequence of operations from a state. -/
def runOps (cfg : Config) (s : AppState) : List Op → AppState
  | [] => s
  | op :: ops => runOps cfg (applyOp cfg s op) ops

/-- The ids issued during a run, in issue order: each accepted add issues
the pre-state's `next_id`. -/
def issuedIds (cfg : Config) (s : AppState) : List Op → List Nat
  | [] => []
  | .add y m k a :: ops =>
      match submitTxn cfg s y m k a with
      | (s', .accepted i) => i :: issuedIds cfg s' ops
      | (s', _) => issuedIds cfg s' ops
  | op :: ops => issuedIds cfg (applyOp cfg s op) ops

/-- The monthly summary's per-month deposit total for year `y` (the
`groupby(["month", "type"])` sum of lines 459–467, deposit column). -/
def monthly_deposits (txns : List Txn) (y : Int) (m : Nat) : ℚ :=
  ((txns.filter fun t =>
      decide (t.year = y ∧ t.month = m ∧ t.kind = Kind.deposit)).map
    Txn.amount).sum

/-- `carryover_prior_to` of the spec (§4.2): room accumulated strictly
before the target year under the never-contributed assumption.  The source
computes exactly this expression at line 241 with the current year as
target. -/
def carryover_prior_to (dobYear : Int) (target_year : Int) : ℚ :=
  total_room_from_inception dobYear target_year - current_year_limit target_year

/-! ## Helper lemmas -/

/-- A Python-style `range` sum rewritten as a sum over the integer interval
`[start, start + n - 1]`. -/
lemma sum_range_map_eq_sum_Icc (f : Int → ℚ) (n : ℕ) (start : Int) :
    ((List.range n).map fun i : ℕ => f (start + (i : Int))).sum =
      ∑ y in Finset.Icc start (start + n - 1), f y := by
  induction n generalizing start with
  | zero =>
      have : Finset.Icc start (start + (0 : ℕ) - 1) = ∅ :=
        Finset.Icc_eq_empty (by omega)
      simp [this]
  | succ n ih =>
      rw [List.range_succ, List.map_append, List.sum_append, ih]
      have hins : Finset.Icc start (start + ((n : ℕ) + 1 : ℕ) - 1) =
          insert (start + n) (Finset.Icc start (start + n - 1)) := by
        ext x
        simp only [Finset.mem_Icc, Finset.mem_insert]
        omega
      have hnot : (start + (n : Int)) ∉ Finset.Icc start (start + (n : Int) - 1) := by
        simp only [Finset.mem_Icc]
        omega
      rw [hins, Finset.sum_insert hnot]
      simp [add_comm]

/-- `total_room_from_inception` as a sum over the inclusive year interval. -/
lemma trfi_eq_Icc (d t : Int) :
    total_room_from_inception d t =
      ∑ y in Finset.Icc (tfsa_start_year_from_dob d) t, LIMITS_BY_YEAR y := by
  unfold total_room_from_inception
  rw [sum_range_map_eq_sum_Icc]
  apply Finset.sum_congr _ fun _ _ => rfl
  ext x
  simp only [Finset.mem_Icc]
  omega

/-- Peeling the top year off the inception sum. -/
lemma trfi_succ (d t : Int) (h : tfsa_start_year_from_dob d ≤ t) :
    total_room_from_inception d t =
      total_room_from_inception d (t - 1) + LIMITS_BY_YEAR t := by
  rw [trfi_eq_Icc, trfi_eq_Icc]
  have hins : Finset.Icc (tfsa_start_year_from_dob d) t =
      insert t (Finset.Icc (tfsa_start_year_from_dob d) (t - 1)) := by
    ext x
    simp only [Finset.mem_Icc, Finset.mem_insert]
    omega
  have hnot : t ∉ Finset.Icc (tfsa_start_year_from_dob d) (t - 1) := by
    simp only [Finset.mem_Icc]
    omega
  rw [hins, Finset.sum_insert hnot, add_comm]

/-- A target year before first eligibility gives an empty range and room 0. -/
lemma trfi_of_lt (d t : Int) (h : t < tfsa_start_year_from_dob d) :
    total_room_from_inception d t = 0 := by
  rw [trfi_eq_Icc]
  rw [Finset.Icc_eq_empty (by omega)]
  rfl

/-- On rejection `submitTxn` returns the state unchanged; on acceptance it
appends one transaction and bumps the counter. -/
lemma submitTxn_spec (cfg : Config) (s : AppState) (y : Int) (m : Nat)
    (k : Kind) (a : ℚ) :
    (∃ tx : Txn, submitTxn cfg s y m k a =
        (⟨s.transactions ++ [tx], s.next_id + 1⟩, Outcome.accepted s.next_id)) ∨
    ((submitTxn cfg s y m k a).1 = s ∧
      ∀ i, (submitTxn cfg s y m k a).2 ≠ Outcome.accepted i) := by
  unfold submitTxn
  split
  · right
    exact ⟨rfl, fun i h => Outcome.noConfusion h⟩
  · cases k with
    | deposit =>
        dsimp only
        split
        · right
          exact ⟨rfl, fun i h => Outcome.noConfusion h⟩
        · left
          exact ⟨_, rfl⟩
    | withdrawal =>
        dsimp only
        split
        · right
          exact ⟨rfl, fun i h => Outcome.noConfusion h⟩
        · left
          exact ⟨_, rfl⟩

/-! ## Claims -/

/-- C1.  Deposit validation: for a proposed deposit with positive amount,
the bound is `max 0 (carryover_basis + limit_for Y - deposits_in_year Y)`
when `Y` is the current year — the carryover basis being the declared
carryover in Declared mode and `carryover_prior_to` in Inferred mode — and
`max 0 (limit_for Y - deposits_in_year Y)` otherwise; the deposit is
accepted iff the amount is at most the bound, and a rejection reports the
bound. -/
theorem C1_deposit_validation (cfg : Config) (s : AppState) (y : Int) (m : Nat)
    (a : ℚ) (ha : 0 < a) :
    (y = cfg.currentYear →
      allowed_room_for cfg s.transactions y =
        max 0 ((match cfg.mode with
          | CarryMode.inferred => carryover_prior_to cfg.dobYear y
          | CarryMode.declared c => c) +
          current_year_limit y - current_year_deposits s.transactions y)) ∧
    (y ≠ cfg.currentYear →
      allowed_room_for cfg s.transactions y =
        max 0 (current_year_limit y - current_year_deposits s.transactions y)) ∧
    ((submitTxn cfg s y m Kind.deposit a).2 = Outcome.accepted s.next_id ↔
      a ≤ allowed_room_for cfg s.transactions y) ∧
    (allowed_room_for cfg s.transactions y < a →
      submitTxn cfg s y m Kind.deposit a =
        (s, Outcome.insufficientRoom (allowed_room_for cfg s.transactions y))) := by
  refine ⟨?_, ?_, ?_, ?_⟩
  · intro hy
    subst hy
    cases hmode : cfg.mode with
    | inferred =>
        simp [allowed_room_for, base_carry, carryover_prior, carryover_prior_to, hmode]
    | declared c =>
        simp [allowed_room_for, base_carry, carryover_prior, hmode]
  · intro hy
    simp [allowed_room_for, hy]
  · unfold submitTxn
    rw [if_neg (not_le.mpr ha)]
    dsimp only
    by_cases hgt : a > allowed_room_for cfg s.transactions y
    · rw [if_pos hgt]
      constructor
      · intro h
        exact Outcome.noConfusion h
      · intro h
        exact absurd hgt (not_lt.mpr h)
    · rw [if_neg hgt]
      exact ⟨fun _ => not_lt.mp hgt, fun _ => rfl⟩
  · intro hlt
    unfold submitTxn
    rw [if_neg (not_le.mpr ha)]
    dsimp only
    rw [if_pos hlt]

/-- Witness for C1 at a concrete deposit: declared carryover 0, current
year 2025, empty store, amount 100. -/
theorem C1_deposit_validation_witness :
    (((2025 : Int) = 2025 →
      allowed_room_for ⟨1990, 2025, CarryMode.declared 0⟩ initState.transactions 2025 =
        max 0 ((0 : ℚ) + current_year_limit 2025 -
          current_year_deposits initState.transactions 2025)) ∧
    ((2025 : Int) ≠ 2025 →
      allowed_room_for ⟨1990, 2025, CarryMode.declared 0⟩ initState.transactions 2025 =
        max 0 (current_year_limit 2025 - current_year_deposits initState.transactions 2025)) ∧
    ((submitTxn ⟨1990, 2025, CarryMode.declared 0⟩ initState 2025 1 Kind.deposit 100).2 =
        Outcome.accepted initState.next_id ↔
      (100 : ℚ) ≤ allowed_room_for ⟨1990, 2025, CarryMode.declared 0⟩
        initState.transactions 2025) ∧
    (allowed_room_for ⟨1990, 2025, CarryMode.declared 0⟩ initState.transactions 2025 < 100 →
      submitTxn ⟨1990, 2025, CarryMode.declared 0⟩ initState 2025 1 Kind.deposit 100 =
        (initState, Outcome.insufficientRoom (allowed_room_for ⟨1990, 2025, CarryMode.declared 0⟩
          initState.transactions 2025)))) :=
  C1_deposit_validation ⟨1990, 2025, CarryMode.declared 0⟩ initState 2025 1 100 (by norm_num)

/-- C2.  Withdrawal validation: whatever the dated year, the bound is the
lifetime balance of the store before the transaction; accepted iff the
amount is at most it, and a rejection reports the balance and leaves the
state unchanged. -/
theorem C2_withdrawal_validation (cfg : Config) (s : AppState) (y : Int)
    (m : Nat) (a : ℚ) (ha : 0 < a) :
    ((submitTxn cfg s y m Kind.withdrawal a).2 = Outcome.accepted s.next_id ↔
      a ≤ lifetime_balance s.transactions) ∧
    (lifetime_balance s.transactions < a →
      submitTxn cfg s y m Kind.withdrawal a =
        (s, Outcome.insufficientBalance (lifetime_balance s.transactions))) := by
  constructor
  · unfold submitTxn
    rw [if_neg (not_le.mpr ha)]
    dsimp only
    by_cases hgt : a > lifetime_balance s.transactions
    · rw [if_pos hgt]
      constructor
      · intro h
        exact Outcome.noConfusion h
      · intro h
        exact absurd hgt (not_lt.mpr h)
    · rw [if_neg hgt]
      exact ⟨fun _ => not_lt.mp hgt, fun _ => rfl⟩
  · intro hlt
    unfold submitTxn
    rw [if_neg (not_le.mpr ha)]
    dsimp only
    rw [if_pos hlt]

/-- The configuration used by several concrete runs: declared carryover 0
in year 2025. -/
def cfg0 : Config := ⟨1990, 2025, CarryMode.declared 0⟩

/-- The store after one accepted deposit of 100 dated 2025-01. -/
def state1 : AppState := (submitTxn cfg0 initState 2025 1 Kind.deposit 100).1

/-- Witness for C2 at a concrete withdrawal: a 50 withdrawal against a
store holding one 100 deposit. -/
theorem C2_withdrawal_validation_witness :
    (((submitTxn cfg0 state1 2025 2 Kind.withdrawal 50).2 =
        Outcome.accepted state1.next_id ↔
      (50 : ℚ) ≤ lifetime_balance state1.transactions) ∧
    (lifetime_balance state1.transactions < 50 →
      submitTxn cfg0 state1 2025 2 Kind.withdrawal 50 =
        (state1, Outcome.insufficientBalance (lifetime_balance state1.transactions)))) :=
  C2_withdrawal_validation cfg0 state1 2025 2 50 (by norm_num)

/-- C5.  The `amount <= 0` gate runs before either branch and rejects with
`InvalidAmount`; every rejection leaves the state (transaction list and id
counter) unchanged, so transactions are created only on acceptance. -/
theorem C5_invalid_amount_and_rejection_atomicity (cfg : Config) (s : AppState)
    (y : Int) (m : Nat) (k : Kind) (a : ℚ) :
    (a ≤ 0 → submitTxn cfg s y m k a = (s, Outcome.invalidAmount)) ∧
    ((∀ i, (submitTxn cfg s y m k a).2 ≠ Outcome.accepted i) →
      (submitTxn cfg s y m k a).1 = s) := by
  constructor
  · intro h
    unfold submitTxn
    rw [if_pos h]
  · rcases submitTxn_spec cfg s y m k a with ⟨tx, heq⟩ | ⟨h1, _⟩
    · intro hno
      exact absurd (by rw [heq]) (hno s.next_id)
    · intro _
      exact h1

/-- Witness for C5 at amount 0: rejected as `InvalidAmount`, state intact. -/
theorem C5_invalid_amount_witness :
    submitTxn cfg0 initState 2025 1 Kind.deposit 0 = (initState, Outcome.invalidAmount) ∧
    (submitTxn cfg0 initState 2025 1 Kind.deposit 0).1 = initState :=
  ⟨(C5_invalid_amount_and_rejection_atomicity cfg0 initState 2025 1 Kind.deposit 0).1
      (by norm_num),
   (C5_invalid_amount_and_rejection_atomicity cfg0 initState 2025 1 Kind.deposit 0).2
      (by intro i h; simp [submitTxn] at h)⟩

/-- Evaluation lemma: comparing the two transaction kinds. -/
lemma decide_dep_wd : decide (Kind.deposit = Kind.withdrawal) = false := rfl

/-- Evaluation lemma: comparing the two transaction kinds, reversed. -/
lemma decide_wd_dep : decide (Kind.withdrawal = Kind.deposit) = false := rfl

/-- Evaluation lemma: a deposit kind equals itself. -/
lemma decide_dep_dep : decide (Kind.deposit = Kind.deposit) = true := rfl

/-- Evaluation lemma: a withdrawal kind equals itself. -/
lemma decide_wd_wd : decide (Kind.withdrawal = Kind.withdrawal) = true := rfl

/-- Deposit 100, withdraw the full 100, then delete the deposit row:
after this the lifetime balance is negative. -/
def cexOps : List Op :=
  [Op.add 2025 1 Kind.deposit 100, Op.add 2025 1 Kind.withdrawal 100, Op.del 1]

set_option maxRecDepth 8000

/-- Evaluating the counterexample run: one orphaned withdrawal remains. -/
lemma cexRun_eval : runOps cfg0 initState cexOps =
    ⟨[⟨2, 2025, 1, Kind.withdrawal, 100⟩], 3⟩ := by
  norm_num [cexOps, cfg0, runOps, applyOp, submitTxn, deleteTxn, allowed_room_for,
    base_carry, carryover_prior, current_year_limit, current_year_deposits,
    lifetime_balance, LIMITS_BY_YEAR, initState, List.filter,
    decide_dep_wd, decide_wd_dep, decide_dep_dep, decide_wd_wd]

/-- C3 counterexample.  A store state reachable through the app's own
operations (deposit, full withdrawal, delete of the deposit row) has
lifetime balance −100, and a proposed withdrawal of 50 is then decided —
and rejected — against that negative bound, contradicting the claim that
the bound fed to the acceptance comparison is never negative. -/
theorem C3_counterexample :
    lifetime_balance (runOps cfg0 initState cexOps).transactions = -100 ∧
    submitTxn cfg0 (runOps cfg0 initState cexOps) 2025 2 Kind.withdrawal 50 =
      (runOps cfg0 initState cexOps, Outcome.insufficientBalance (-100)) := by
  rw [cexRun_eval]
  norm_num [lifetime_balance, submitTxn, List.filter,
    decide_dep_wd, decide_wd_dep, decide_dep_dep, decide_wd_wd]

/-- C3 amended.  The deposit bound `allowed_room` is never negative, for
any store state.  The withdrawal bound is the raw lifetime balance, which
can go negative once a deposit row is deleted; when it is negative the
comparison never becomes permissive: every positive-amount withdrawal is
rejected with the (negative) balance reported and the store unchanged. -/
theorem C3_floor_amended (cfg : Config) (txns : List Txn) (y : Int)
    (s : AppState) (m : Nat) (a : ℚ) (ha : 0 < a)
    (hneg : lifetime_balance s.transactions < 0) :
    0 ≤ allowed_room_for cfg txns y ∧
    submitTxn cfg s y m Kind.withdrawal a =
      (s, Outcome.insufficientBalance (lifetime_balance s.transactions)) := by
  constructor
  · unfold allowed_room_for
    split
    · exact le_max_left 0 _
    · exact le_max_left 0 _
  · unfold submitTxn
    rw [if_neg (not_le.mpr ha)]
    dsimp only
    rw [if_pos (lt_trans hneg ha)]

/-- Witness for the amended C3: the orphaned-withdrawal store. -/
theorem C3_floor_amended_witness :
    0 ≤ allowed_room_for cfg0
      (AppState.transactions ⟨[⟨2, 2025, 1, Kind.withdrawal, 100⟩], 3⟩) 2025 ∧
    submitTxn cfg0 ⟨[⟨2, 2025, 1, Kind.withdrawal, 100⟩], 3⟩ 2025 2 Kind.withdrawal 50 =
      (⟨[⟨2, 2025, 1, Kind.withdrawal, 100⟩], 3⟩,
        Outcome.insufficientBalance
          (lifetime_balance
            (AppState.transactions ⟨[⟨2, 2025, 1, Kind.withdrawal, 100⟩], 3⟩))) :=
  C3_floor_amended cfg0 _ 2025 ⟨[⟨2, 2025, 1, Kind.withdrawal, 100⟩], 3⟩ 2 50
    (by norm_num)
    (by norm_num [lifetime_balance, List.filter,
      decide_dep_wd, decide_wd_dep, decide_dep_dep, decide_wd_wd])

/-- C6.  `room_from_inception` reference definition: it sums `limit_for y`
over the inclusive interval from `first_eligible_year = max (birth_year +
18) 2009` to the target year, the range being empty (result 0) when the
target precedes first eligibility, and the limit table returning 0 for
unconfigured years. -/
theorem C6_room_from_inception_reference (d t : Int) :
    total_room_from_inception d t =
      ∑ y in Finset.Icc (tfsa_start_year_from_dob d) t, LIMITS_BY_YEAR y ∧
    tfsa_start_year_from_dob d = max (d + 18) 2009 ∧
    (t < tfsa_start_year_from_dob d → total_room_from_inception d t = 0) ∧
    (∀ y : Int, y < 2009 ∨ 2025 < y → LIMITS_BY_YEAR y = 0) := by
  refine ⟨trfi_eq_Icc d t, rfl, trfi_of_lt d t, ?_⟩
  intro y hy
  unfold LIMITS_BY_YEAR
  rcases hy with hy | hy <;> split <;> first | rfl | (exfalso; omega)

/-- Witness for C6 at a not-yet-eligible birth year (first eligible 2038,
target 2025): the empty-range implication fires. -/
theorem C6_room_from_inception_witness :
    total_room_from_inception 2020 2025 =
      ∑ y in Finset.Icc (tfsa_start_year_from_dob 2020) 2025, LIMITS_BY_YEAR y ∧
    total_room_from_inception 2020 2025 = 0 :=
  ⟨(C6_room_from_inception_reference 2020 2025).1,
   (C6_room_from_inception_reference 2020 2025).2.2.1 (by decide)⟩

/-- C9.  The two total-room computations agree: the breakdown total of
lines 292–299 equals the estimator total of lines 240/248 — unconditionally
in Declared mode, and in Inferred mode whenever the first eligible year is
at most the current year. -/
theorem C9_total_room_agreement (cfg : Config) :
    (∀ c, cfg.mode = CarryMode.declared c →
      total_room_this_year cfg = estimated_room_total cfg) ∧
    (cfg.mode = CarryMode.inferred →
      tfsa_start_year_from_dob cfg.dobYear ≤ cfg.currentYear →
      total_room_this_year cfg = estimated_room_total cfg) := by
  constructor
  · intro c hc
    simp [total_room_this_year, estimated_room_total, carryover_prior, hc]
  · intro hm hle
    simp only [total_room_this_year, estimated_room_total, carryover_prior, hm]
    by_cases hgt : cfg.currentYear > 2009
    · rw [if_pos hgt]
      rw [trfi_succ cfg.dobYear cfg.currentYear hle]
      simp only [current_year_limit]
      ring
    · rw [if_neg hgt]
      have h2009 : (2009 : Int) ≤ tfsa_start_year_from_dob cfg.dobYear :=
        le_max_right _ _
      have hcy : tfsa_start_year_from_dob cfg.dobYear = cfg.currentYear := by omega
      rw [trfi_eq_Icc, hcy, Finset.Icc_self, Finset.sum_singleton]
      rfl

/-- Witness for C9: both modes at concrete configurations. -/
theorem C9_total_room_agreement_witness :
    total_room_this_year ⟨1990, 2025, CarryMode.declared 1000⟩ =
      estimated_room_total ⟨1990, 2025, CarryMode.declared 1000⟩ ∧
    total_room_this_year ⟨1990, 2025, CarryMode.inferred⟩ =
      estimated_room_total ⟨1990, 2025, CarryMode.inferred⟩ :=
  ⟨(C9_total_room_agreement ⟨1990, 2025, CarryMode.declared 1000⟩).1 1000 rfl,
   (C9_total_room_agreement ⟨1990, 2025, CarryMode.inferred⟩).2 rfl (by decide)⟩

/-- C10.  Every percent-used computation is guarded: with a zero total
each of the three percentage sites yields 0 rather than dividing, and a
birth date whose first eligible year lies in the future makes the
estimated total room itself 0, so the displayed percentage is 0. -/
theorem C10_guarded_percentage (d : ℚ) (cfg : Config)
    (hm : cfg.mode = CarryMode.inferred)
    (hfut : cfg.currentYear < tfsa_start_year_from_dob cfg.dobYear) :
    room_used_pct d 0 = 0 ∧ pct_used d 0 = 0 ∧ pct2 d 0 = 0 ∧
    estimated_room_total cfg = 0 ∧
    room_used_pct d (estimated_room_total cfg) = 0 := by
  have hz : estimated_room_total cfg = 0 := by
    simp [estimated_room_total, hm, trfi_of_lt _ _ hfut]
  refine ⟨?_, ?_, ?_, hz, ?_⟩ <;> simp [room_used_pct, pct_used, pct2, hz]

/-- Witness for C10: birth year 2020 (first eligible 2038) in 2025. -/
theorem C10_guarded_percentage_witness :
    room_used_pct 5 0 = 0 ∧ pct_used 5 0 = 0 ∧ pct2 5 0 = 0 ∧
    estimated_room_total ⟨2020, 2025, CarryMode.inferred⟩ = 0 ∧
    room_used_pct 5 (estimated_room_total ⟨2020, 2025, CarryMode.inferred⟩) = 0 :=
  C10_guarded_percentage 5 ⟨2020, 2025, CarryMode.inferred⟩ rfl (by decide)

/-- C7.  Frame property of an accepted withdrawal: the current year's
deposit total is untouched and the displayed remaining room does not
increase. -/
theorem C7_withdrawal_frame (cfg : Config) (s : AppState) (y : Int) (m : Nat)
    (a : ℚ) (s' : AppState) (i : Nat)
    (h : submitTxn cfg s y m Kind.withdrawal a = (s', Outcome.accepted i)) :
    current_year_deposits s'.transactions cfg.currentYear =
      current_year_deposits s.transactions cfg.currentYear ∧
    room_left cfg s'.transactions ≤ room_left cfg s.transactions := by
  unfold submitTxn at h
  by_cases h0 : a ≤ 0
  · rw [if_pos h0] at h
    exact absurd (congrArg Prod.snd h) (by simp)
  · rw [if_neg h0] at h
    dsimp only at h
    by_cases hb : a > lifetime_balance s.transactions
    · rw [if_pos hb] at h
      exact absurd (congrArg Prod.snd h) (by simp)
    · rw [if_neg hb] at h
      injection h with h1 h2
      subst h1
      have hdep : current_year_deposits
          (s.transactions ++ [⟨s.next_id, y, m, Kind.withdrawal, a⟩])
          cfg.currentYear =
          current_year_deposits s.transactions cfg.currentYear := by
        simp [current_year_deposits, List.filter_append, List.filter_cons]
      refine ⟨hdep, le_of_eq ?_⟩
      unfold room_left
      rw [hdep]

/-- Evaluating the one-deposit store. -/
lemma state1_eval : state1 = ⟨[⟨1, 2025, 1, Kind.deposit, 100⟩], 2⟩ := by
  norm_num [state1, cfg0, submitTxn, allowed_room_for, base_carry, carryover_prior,
    current_year_limit, current_year_deposits, LIMITS_BY_YEAR, initState,
    List.filter, decide_dep_wd, decide_wd_dep, decide_dep_dep, decide_wd_wd]

/-- Witness for C7: a 50 withdrawal accepted against the one-deposit store. -/
theorem C7_withdrawal_frame_witness :
    current_year_deposits
        (submitTxn cfg0 state1 2025 2 Kind.withdrawal 50).1.transactions 2025 =
      current_year_deposits state1.transactions 2025 ∧
    room_left cfg0 (submitTxn cfg0 state1 2025 2 Kind.withdrawal 50).1.transactions ≤
      room_left cfg0 state1.transactions :=
  C7_withdrawal_frame cfg0 state1 2025 2 50 _ 2
    (by rw [state1_eval]
        norm_num [cfg0, submitTxn, lifetime_balance, List.filter,
          decide_dep_wd, decide_wd_dep, decide_dep_dep, decide_wd_wd])

/-- An accepted submit issues exactly the pre-state's `next_id` and bumps
the counter by one. -/
lemma submitTxn_accepted_eq (cfg : Config) (s : AppState) (y : Int) (m : Nat)
    (k : Kind) (a : ℚ) (s' : AppState) (j : Nat)
    (h : submitTxn cfg s y m k a = (s', Outcome.accepted j)) :
    j = s.next_id ∧ s'.next_id = s.next_id + 1 := by
  rcases submitTxn_spec cfg s y m k a with ⟨tx, heq⟩ | ⟨h1, h2⟩
  · rw [h] at heq
    injection heq with e1 e2
    injection e2 with e3
    exact ⟨e3, by rw [e1]⟩
  · rw [h] at h2
    exact absurd rfl (h2 j)

/-- A rejected submit leaves the state unchanged. -/
lemma submitTxn_rejected_eq (cfg : Config) (s : AppState) (y : Int) (m : Nat)
    (k : Kind) (a : ℚ) (s' : AppState) (o : Outcome)
    (h : submitTxn cfg s y m k a = (s', o)) (ho : ∀ j, o ≠ Outcome.accepted j) :
    s' = s := by
  rcases submitTxn_spec cfg s y m k a with ⟨tx, heq⟩ | ⟨h1, _⟩
  · rw [h] at heq
    injection heq with e1 e2
    exact absurd e2 (ho _)
  · rw [h] at h1
    exact h1

/-- The ids a run issues are bounded below by the starting counter and are
strictly increasing in issue order. -/
lemma issuedIds_sorted (cfg : Config) :
    ∀ (ops : List Op) (s : AppState),
      (∀ i ∈ issuedIds cfg s ops, s.next_id ≤ i) ∧
      List.Chain' (· < ·) (issuedIds cfg s ops) := by
  intro ops
  induction ops with
  | nil =>
      intro s
      simp [issuedIds]
  | cons op ops ih =>
      intro s
      cases op with
      | add y m k a =>
          cases hsub : submitTxn cfg s y m k a with
          | mk s' o =>
            cases o with
            | accepted j =>
                obtain ⟨hj, hnext⟩ := submitTxn_accepted_eq cfg s y m k a s' j hsub
                subst hj
                have hred : issuedIds cfg s (Op.add y m k a :: ops) =
                    s.next_id :: issuedIds cfg s' ops := by
                  simp only [issuedIds, hsub]
                obtain ⟨ihlb, ihch⟩ := ih s'
                rw [hred]
                constructor
                · intro i hi
                  rcases List.mem_cons.mp hi with rfl | hi'
                  · exact le_refl _
                  · have := ihlb i hi'
                    omega
                · refine List.chain'_cons'.mpr ⟨?_, ihch⟩
                  intro b hb
                  have hmem : b ∈ issuedIds cfg s' ops := List.mem_of_mem_head? hb
                  have := ihlb b hmem
                  omega
            | invalidAmount =>
                have hs : s' = s := submitTxn_rejected_eq cfg s y m k a s' _ hsub
                  fun j h => Outcome.noConfusion h
                have hred : issuedIds cfg s (Op.add y m k a :: ops) =
                    issuedIds cfg s' ops := by
                  simp only [issuedIds, hsub]
                rw [hred, hs]
                exact ih s
            | insufficientRoom r =>
                have hs : s' = s := submitTxn_rejected_eq cfg s y m k a s' _ hsub
                  fun j h => Outcome.noConfusion h
                have hred : issuedIds cfg s (Op.add y m k a :: ops) =
                    issuedIds cfg s' ops := by
                  simp only [issuedIds, hsub]
                rw [hred, hs]
                exact ih s
            | insufficientBalance b =>
                have hs : s' = s := submitTxn_rejected_eq cfg s y m k a s' _ hsub
                  fun j h => Outcome.noConfusion h
                have hred : issuedIds cfg s (Op.add y m k a :: ops) =
                    issuedIds cfg s' ops := by
                  simp only [issuedIds, hsub]
                rw [hred, hs]
                exact ih s
      | del i =>
          have hred : issuedIds cfg s (Op.del i :: ops) =
              issuedIds cfg (deleteTxn s i) ops := by
            simp only [issuedIds, applyOp]
          rw [hred]
          exact ih (deleteTxn s i)
      | clear =>
          have hred : issuedIds cfg s (Op.clear :: ops) =
              issuedIds cfg (clearAll s) ops := by
            simp only [issuedIds, applyOp]
          rw [hred]
          exact ih (clearAll s)

/-- C4.  Monotonic ids: over any operation sequence from the initial
state, the issued ids are strictly increasing in issue order (hence all
distinct, never reused), and clear-all empties the list without resetting
the counter. -/
theorem C4_monotonic_ids (cfg : Config) (ops : List Op) :
    List.Chain' (· < ·) (issuedIds cfg initState ops) ∧
    (issuedIds cfg initState ops).Nodup ∧
    ∀ s : AppState, (clearAll s).transactions = [] ∧ (clearAll s).next_id = s.next_id := by
  obtain ⟨_, hch⟩ := issuedIds_sorted cfg ops initState
  refine ⟨hch, ?_, fun s => ⟨rfl, rfl⟩⟩
  have hpw : List.Pairwise (· < ·) (issuedIds cfg initState ops) :=
    List.chain'_iff_pairwise.mp hch
  exact hpw.imp Nat.ne_of_lt

/-- Peeling one transaction off the per-month deposit total. -/
lemma monthly_deposits_cons (t : Txn) (ts : List Txn) (y : Int) (m : Nat) :
    monthly_deposits (t :: ts) y m =
      (if t.year = y ∧ t.month = m ∧ t.kind = Kind.deposit then t.amount else 0) +
        monthly_deposits ts y m := by
  by_cases h : t.year = y ∧ t.month = m ∧ t.kind = Kind.deposit
  · simp [monthly_deposits, List.filter_cons, h]
  · simp [monthly_deposits, List.filter_cons, h]

/-- Peeling one transaction off the yearly deposit total. -/
lemma current_year_deposits_cons (t : Txn) (ts : List Txn) (y : Int) :
    current_year_deposits (t :: ts) y =
      (if t.year = y ∧ t.kind = Kind.deposit then t.amount else 0) +
        current_year_deposits ts y := by
  by_cases h : t.year = y ∧ t.kind = Kind.deposit
  · simp [current_year_deposits, List.filter_cons, h]
  · simp [current_year_deposits, List.filter_cons, h]

/-- C8.  Aggregation additivity: when every stored month is a calendar
month (1–12), the monthly summary's deposit totals over the twelve months
of year `y` sum to the yearly deposit total computed over the full log. -/
theorem C8_aggregation_additivity (txns : List Txn) (y : Int)
    (hm : ∀ t ∈ txns, 1 ≤ t.month ∧ t.month ≤ 12) :
    ∑ m in Finset.Icc 1 12, monthly_deposits txns y m =
      current_year_deposits txns y := by
  induction txns with
  | nil =>
      simp [monthly_deposits, current_year_deposits]
  | cons t ts ih =>
      have hmt := hm t (List.mem_cons_self t ts)
      have hmts : ∀ x ∈ ts, 1 ≤ x.month ∧ x.month ≤ 12 :=
        fun x hx => hm x (List.mem_cons_of_mem t hx)
      have hsum : ∀ m ∈ Finset.Icc 1 12, monthly_deposits (t :: ts) y m =
          (if t.year = y ∧ t.month = m ∧ t.kind = Kind.deposit then t.amount else 0) +
            monthly_deposits ts y m := fun m _ => monthly_deposits_cons t ts y m
      rw [Finset.sum_congr rfl hsum, Finset.sum_add_distrib, ih hmts,
        current_year_deposits_cons]
      congr 1
      by_cases hty : t.year = y
      · by_cases hk : t.kind = Kind.deposit
        · simp only [hty, hk, eq_self_iff_true, true_and, and_true, if_true]
          rw [Finset.sum_ite_eq, if_pos (Finset.mem_Icc.mpr hmt)]
        · simp [hk]
      · simp [hty]

/-- Witness for C8: a four-transaction store mixing years, months and
kinds. -/
theorem C8_aggregation_additivity_witness :
    ∑ m in Finset.Icc 1 12, monthly_deposits
        [⟨1, 2025, 1, Kind.deposit, 100⟩, ⟨2, 2025, 3, Kind.deposit, 50⟩,
         ⟨3, 2025, 3, Kind.withdrawal, 25⟩, ⟨4, 2024, 2, Kind.deposit, 70⟩] 2025 m =
      current_year_deposits
        [⟨1, 2025, 1, Kind.deposit, 100⟩, ⟨2, 2025, 3, Kind.deposit, 50⟩,
         ⟨3, 2025, 3, Kind.withdrawal, 25⟩, ⟨4, 2024, 2, Kind.deposit, 70⟩] 2025 :=
  C8_aggregation_additivity _ 2025
    (by intro t ht
        simp only [List.mem_cons, List.not_mem_nil, or_false] at ht
        rcases ht with rfl | rfl | rfl | rfl <;> exact ⟨by norm_num, by norm_num⟩)
